import Mathlib

set_option maxRecDepth 100000
set_option autoImplicit false

/-!
Verification of the gogemini exchange-client library (`gemini.go`) against its
specification.  The Go source is shallowly embedded: byte strings are `List Nat`
(each element a byte value `< 256`), machine `int64` is `Int` (the nonce counter
is seeded from a wall-clock value near `2 ^ 60` and incremented by one per call,
so 64-bit overflow is unreachable in any feasible execution), stateful methods
are explicit state-passing functions, and the HTTP transport is an oracle
`HttpRequest → TransportResult` standing for `http.Client.Do` plus body read.
-/

/-! ## Bytes, digits, hex, base64 -/

/-- Decimal digit character, `digitChar d = '0' + d` for `d < 10`. -/
def digitChar (d : Nat) : Char := Char.ofNat (48 + d)

/-- Auxiliary decimal rendering with explicit fuel (fuel `n + 1` always
suffices, since the digit count of `n` is at most `n + 1`). -/
def natDigitsAux : Nat → Nat → List Char
  | 0, _ => []
  | fuel + 1, n =>
    if n < 10 then [digitChar n]
    else natDigitsAux fuel (n / 10) ++ [digitChar (n % 10)]

/-- Decimal digit characters of a natural number, most significant first. -/
def natDigits (n : Nat) : List Char := natDigitsAux (n + 1) n

/-- Decimal rendering of an integer (Go `strconv` style), as characters. -/
def intChars (i : Int) : List Char :=
  if i < 0 then '-' :: natDigits (-i).toNat else natDigits i.toNat

/-- UTF-8 encoding of one character, as byte values. -/
def utf8Bytes (c : Char) : List Nat :=
  let n := c.toNat
  if n < 0x80 then [n]
  else if n < 0x800 then [0xC0 + n / 64, 0x80 + n % 64]
  else if n < 0x10000 then [0xE0 + n / 4096, 0x80 + n / 64 % 64, 0x80 + n % 64]
  else [0xF0 + n / 262144, 0x80 + n / 4096 % 64, 0x80 + n / 64 % 64, 0x80 + n % 64]

/-- Bytes of a Lean `String`, modelling Go's `[]byte(s)` (UTF-8). -/
def strBytes (s : String) : List Nat := (s.data.map utf8Bytes).flatten

/-- Lowercase hexadecimal digit, as produced by Go's `encoding/hex`. -/
def hexDigitChar (d : Nat) : Char :=
  if d < 10 then Char.ofNat (48 + d) else Char.ofNat (87 + d)

/-- Lowercase hex rendering of a byte list, modelling `hex.EncodeToString`. -/
def hexEncode (bs : List Nat) : String :=
  String.mk ((bs.map (fun b => [hexDigitChar (b / 16), hexDigitChar (b % 16)])).flatten)

/-- Character of the standard base64 alphabet at index `n < 64`. -/
def base64Char (n : Nat) : Char :=
  if n < 26 then Char.ofNat (65 + n)
  else if n < 52 then Char.ofNat (97 + (n - 26))
  else if n < 62 then Char.ofNat (48 + (n - 52))
  else if n = 62 then '+' else '/'

/-- Standard base64 with padding, modelling `base64.StdEncoding.EncodeToString`. -/
def base64Chars : List Nat → List Char
  | [] => []
  | [a] =>
    [base64Char (a / 4), base64Char (a % 4 * 16), '=', '=']
  | [a, b] =>
    [base64Char (a / 4), base64Char (a % 4 * 16 + b / 16), base64Char (b % 16 * 4), '=']
  | a :: b :: c :: rest =>
    base64Char (a / 4) :: base64Char (a % 4 * 16 + b / 16) ::
      base64Char (b % 16 * 4 + c / 64) :: base64Char (c % 64) :: base64Chars rest

/-- String form of the base64 encoding. -/
def base64Encode (bs : List Nat) : String := String.mk (base64Chars bs)

/-! ## SHA-512/384 and HMAC

Executable model of `crypto/sha512.New384` and `crypto/hmac` as used by
`AuthAPIReq`.  64-bit words are `Nat` reduced mod `2 ^ 64` at every operation.
-/

/-- Truncate to a 64-bit word. -/
def w64 (n : Nat) : Nat := n % (2 ^ 64)

/-- 64-bit addition. -/
def add64 (a b : Nat) : Nat := (a + b) % (2 ^ 64)

/-- 64-bit right rotation by `n` bits. -/
def rotr64 (n x : Nat) : Nat := ((x >>> n) ||| (x <<< (64 - n))) % (2 ^ 64)

/-- 64-bit bitwise complement. -/
def not64 (x : Nat) : Nat := x ^^^ (2 ^ 64 - 1)

/-- SHA-512 big sigma 0. -/
def bSig0 (x : Nat) : Nat := rotr64 28 x ^^^ rotr64 34 x ^^^ rotr64 39 x

/-- SHA-512 big sigma 1. -/
def bSig1 (x : Nat) : Nat := rotr64 14 x ^^^ rotr64 18 x ^^^ rotr64 41 x

/-- SHA-512 small sigma 0. -/
def sSig0 (x : Nat) : Nat := rotr64 1 x ^^^ rotr64 8 x ^^^ (x >>> 7)

/-- SHA-512 small sigma 1. -/
def sSig1 (x : Nat) : Nat := rotr64 19 x ^^^ rotr64 61 x ^^^ (x >>> 6)

/-- SHA-512 choice function. -/
def shaCh (e f g : Nat) : Nat := (e &&& f) ^^^ (not64 e &&& g)

/-- SHA-512 majority function. -/
def shaMaj (a b c : Nat) : Nat := (a &&& b) ^^^ (a &&& c) ^^^ (b &&& c)

/-- The 80 SHA-512 round constants. -/
def shaK : List Nat :=
  [0x428A2F98D728AE22, 0x7137449123EF65CD, 0xB5C0FBCFEC4D3B2F,
   0xE9B5DBA58189DBBC, 0x3956C25BF348B538, 0x59F111F1B605D019,
   0x923F82A4AF194F9B, 0xAB1C5ED5DA6D8118, 0xD807AA98A3030242,
   0x12835B0145706FBE, 0x243185BE4EE4B28C, 0x550C7DC3D5FFB4E2,
   0x72BE5D74F27B896F, 0x80DEB1FE3B1696B1, 0x9BDC06A725C71235,
   0xC19BF174CF692694, 0xE49B69C19EF14AD2, 0xEFBE4786384F25E3,
   0x0FC19DC68B8CD5B5, 0x240CA1CC77AC9C65, 0x2DE92C6F592B0275,
   0x4A7484AA6EA6E483, 0x5CB0A9DCBD41FBD4, 0x76F988DA831153B5,
   0x983E5152EE66DFAB, 0xA831C66D2DB43210, 0xB00327C898FB213F,
   0xBF597FC7BEEF0EE4, 0xC6E00BF33DA88FC2, 0xD5A79147930AA725,
   0x06CA6351E003826F, 0x142929670A0E6E70, 0x27B70A8546D22FFC,
   0x2E1B21385C26C926, 0x4D2C6DFC5AC42AED, 0x53380D139D95B3DF,
   0x650A73548BAF63DE, 0x766A0ABB3C77B2A8, 0x81C2C92E47EDAEE6,
   0x92722C851482353B, 0xA2BFE8A14CF10364, 0xA81A664BBC423001,
   0xC24B8B70D0F89791, 0xC76C51A30654BE30, 0xD192E819D6EF5218,
   0xD69906245565A910, 0xF40E35855771202A, 0x106AA07032BBD1B8,
   0x19A4C116B8D2D0C8, 0x1E376C085141AB53, 0x2748774CDF8EEB99,
   0x34B0BCB5E19B48A8, 0x391C0CB3C5C95A63, 0x4ED8AA4AE3418ACB,
   0x5B9CCA4F7763E373, 0x682E6FF3D6B2B8A3, 0x748F82EE5DEFB2FC,
   0x78A5636F43172F60, 0x84C87814A1F0AB72, 0x8CC702081A6439EC,
   0x90BEFFFA23631E28, 0xA4506CEBDE82BDE9, 0xBEF9A3F7B2C67915,
   0xC67178F2E372532B, 0xCA273ECEEA26619C, 0xD186B8C721C0C207,
   0xEADA7DD6CDE0EB1E, 0xF57D4F7FEE6ED178, 0x06F067AA72176FBA,
   0x0A637DC5A2C898A6, 0x113F9804BEF90DAE, 0x1B710B35131C471B,
   0x28DB77F523047D84, 0x32CAAB7B40C72493, 0x3C9EBE0A15C9BEBC,
   0x431D67C49C100D4C, 0x4CC5D4BECB3E42B6, 0x597F299CFC657E2A,
   0x5FCB6FAB3AD6FAEC, 0x6C44198C4A475817]

/-- Initial hash values of SHA-384. -/
def shaIV384 : List Nat :=
  [0xCBBB9D5DC1059ED8, 0x629A292A367CD507, 0x9159015A3070DD17,
   0x152FECD8F70E5939, 0x67332667FFC00B31, 0x8EB44A8768581511,
   0xDB0C2E0D64F98FA7, 0x47B5481DBEFA4FA4]

/-- Big-endian 64-bit word from (up to) 8 bytes. -/
def word64OfBytes (bs : List Nat) : Nat := bs.foldl (fun acc b => acc * 256 + b) 0

/-- The 8 big-endian bytes of a 64-bit word. -/
def bytesOfWord64 (x : Nat) : List Nat :=
  (List.range 8).map (fun i => (x >>> (8 * (7 - i))) % 256)

/-- The 16 big-endian 64-bit words of a 128-byte block. -/
def blockWords (block : List Nat) : List Nat :=
  (List.range 16).map (fun i => word64OfBytes ((block.drop (8 * i)).take 8))

/-- Split a byte list into 128-byte chunks (fuelled; fuel `≥ length` suffices). -/
def chunks128 : Nat → List Nat → List (List Nat)
  | 0, _ => []
  | _, [] => []
  | fuel + 1, l => l.take 128 :: chunks128 fuel (l.drop 128)

/-- SHA padding: append `0x80`, zero bytes to 112 mod 128, then the 16-byte
big-endian bit length. -/
def shaPad (msg : List Nat) : List Nat :=
  let len := msg.length
  let zeros := (112 + 128 - (len + 1) % 128) % 128
  msg ++ [0x80] ++ List.replicate zeros 0 ++
    (List.range 16).map (fun i => ((len * 8) >>> (8 * (15 - i))) % 256)

/-- Extend 16 schedule words to 80.  The accumulator is kept in reverse order
(most recent word first); the counter is the number of words still to add. -/
def schedExtend : Nat → List Nat → List Nat
  | 0, acc => acc
  | n + 1, acc =>
    schedExtend n
      (add64 (add64 (sSig1 (acc.getD 1 0)) (acc.getD 6 0))
             (add64 (sSig0 (acc.getD 14 0)) (acc.getD 15 0)) :: acc)

/-- The 80 message-schedule words of a block. -/
def schedule (block : List Nat) : List Nat :=
  (schedExtend 64 (blockWords block).reverse).reverse

/-- One SHA-512 round: state is `[a, b, c, d, e, f, g, h]`. -/
def shaRound (st : List Nat) (kw : Nat × Nat) : List Nat :=
  match st with
  | [a, b, c, d, e, f, g, h] =>
    let t1 := add64 h (add64 (bSig1 e) (add64 (shaCh e f g) (add64 kw.1 kw.2)))
    let t2 := add64 (bSig0 a) (shaMaj a b c)
    [add64 t1 t2, a, b, c, add64 d t1, e, f, g]
  | other => other

/-- Compress one 128-byte block into the running hash state. -/
def shaCompress (hs : List Nat) (block : List Nat) : List Nat :=
  let st := (shaK.zip (schedule block)).foldl shaRound hs
  List.zipWith add64 hs st

/-- SHA-384 digest (48 bytes) of a byte message. -/
def sha384 (msg : List Nat) : List Nat :=
  let padded := shaPad msg
  let hs := (chunks128 padded.length padded).foldl shaCompress shaIV384
  ((hs.take 6).map bytesOfWord64).flatten

/-- HMAC-SHA384 (Go `hmac.New(sha512.New384, key)`), block size 128 bytes. -/
def hmacSha384 (key msg : List Nat) : List Nat :=
  let key1 := if 128 < key.length then sha384 key else key
  let key2 := key1 ++ List.replicate (128 - key1.length) 0
  sha384 ((key2.map (fun b => b ^^^ 0x5c)) ++
          sha384 ((key2.map (fun b => b ^^^ 0x36)) ++ msg))

/-- FIPS 180 test vector: SHA-384 of the ASCII string abc. -/
theorem sha384_fips180_abc : hexEncode (sha384 (strBytes "abc")) =
    "cb00753f45a35e8bb5a03d699ac65007272c32ab0eded1631a8b605a43ff5bed8086072ba1e7cc2358baeca134c825a7" := by
  decide

/-- RFC 4231 test case 1 for HMAC-SHA-384: key of twenty `0x0b` bytes, message
Hi There. -/
theorem hmacSha384_rfc4231_case1 :
    hexEncode (hmacSha384 (List.replicate 20 0x0b) (strBytes "Hi There")) =
    "afd03944d84895626b0825f4ab46907f15f9dadbe4101ec682aa034c7cebc59cfaea9ea9076ede7f4af152e8b2fa9cb6" := by
  decide

/-- RFC 4648 test vectors for standard base64. -/
theorem base64_rfc4648_vectors :
    base64Encode (strBytes "foob") = "Zm9vYg==" ∧
    base64Encode (strBytes "fooba") = "Zm9vYmE=" ∧
    base64Encode (strBytes "foobar") = "Zm9vYmFy" := by
  decide

/-! ## JSON marshalling (`encoding/json` as used by `GetPayload`)

Model of `json.Marshal` on the three request record types.  Go emits struct
fields in declaration order, with the embedded `BaseRequest` fields inlined
first, and escapes strings with its default HTML-escaping behaviour. -/

/-- Escape one character the way `encoding/json` does inside a string literal:
quote, backslash, the short escapes for newline, carriage return and tab,
`\u00XX` for other control characters, and HTML-escaping of angle brackets and
ampersand (plus U+2028 and U+2029). -/
def jsonEscapeChar (c : Char) : List Char :=
  if c = '"' then ['\\', '"']
  else if c = '\\' then ['\\', '\\']
  else if c = '\n' then ['\\', 'n']
  else if c = '\r' then ['\\', 'r']
  else if c = '\t' then ['\\', 't']
  else if c.toNat < 0x20 then
    ['\\', 'u', '0', '0', hexDigitChar (c.toNat / 16), hexDigitChar (c.toNat % 16)]
  else if c = '<' then ['\\', 'u', '0', '0', '3', 'c']
  else if c = '>' then ['\\', 'u', '0', '0', '3', 'e']
  else if c = '&' then ['\\', 'u', '0', '0', '2', '6']
  else if c.toNat = 0x2028 then ['\\', 'u', '2', '0', '2', '8']
  else if c.toNat = 0x2029 then ['\\', 'u', '2', '0', '2', '9']
  else [c]

/-- JSON string literal for `s`, quotes included. -/
def jsonStr (s : String) : String :=
  String.mk ('"' :: (s.data.map jsonEscapeChar).flatten ++ ['"'])

/-- JSON integer literal. -/
def jsonInt (i : Int) : String := String.mk (intChars i)

/-- JSON array of string literals.  Models marshalling of a `[]string` value;
a nil Go slice (marshalled as `null`) is conflated with the empty slice
(marshalled as `[]`), a distinction no claim depends on. -/
def jsonStrArray (l : List String) : String :=
  "[" ++ String.intercalate "," (l.map jsonStr) ++ "]"

/-! ## Data model (`gemini.go` records) -/

/-- Client record `GeminiAPI`.  The `logger *log.Logger` field is an output
sink only: no method ever reassigns it, and no claim mentions it, so it is
omitted from the state. -/
structure GeminiAPI where
  baseURL : String
  apiKey : String
  apiSecret : String
  nonce : Int
  deriving DecidableEq, Repr

/-- Error record `GeminiError` (fields `result`, `reason`, `message` carry the
JSON tags of the same name; `StatusCode` has no tag and is filled from the
HTTP response). -/
structure GeminiError where
  result : String
  reason : String
  message : String
  statusCode : Nat
  deriving DecidableEq, Repr

/-- Request record `BaseRequest` with JSON fields `request` and `nonce`. -/
structure BaseRequest where
  request : String
  nonce : Int
  deriving DecidableEq, Repr

/-- Request record `OrderPlaceReq`: embedded `BaseRequest` plus the order
fields, in Go declaration order. -/
structure OrderPlaceReq where
  base : BaseRequest
  symbol : String
  amount : String
  price : String
  side : String
  type : String
  clientId : String
  options : List String
  deriving DecidableEq, Repr

/-- Request record `WithdrawReq`: embedded `BaseRequest` plus address and
amount. -/
structure WithdrawReq where
  base : BaseRequest
  address : String
  amount : String
  deriving DecidableEq, Repr

/-- Constructor `NewBaseRequest` (nonce left at the zero value). -/
def newBaseRequest (route : String) : BaseRequest :=
  { request := route, nonce := 0 }

/-- JSON bytes of a `BaseRequest` (`json.Marshal` field order). -/
def BaseRequest.jsonBytes (r : BaseRequest) : List Nat :=
  strBytes ("\x7b\"request\":" ++ jsonStr r.request ++ ",\"nonce\":" ++ jsonInt r.nonce ++ "\x7d")

/-- JSON bytes of an `OrderPlaceReq`: embedded `BaseRequest` fields first,
then the order fields in declaration order. -/
def OrderPlaceReq.jsonBytes (r : OrderPlaceReq) : List Nat :=
  strBytes ("\x7b\"request\":" ++ jsonStr r.base.request ++ ",\"nonce\":" ++ jsonInt r.base.nonce ++
    ",\"symbol\":" ++ jsonStr r.symbol ++ ",\"amount\":" ++ jsonStr r.amount ++
    ",\"price\":" ++ jsonStr r.price ++ ",\"side\":" ++ jsonStr r.side ++
    ",\"type\":" ++ jsonStr r.type ++ ",\"client_order_id\":" ++ jsonStr r.clientId ++
    ",\"options\":" ++ jsonStrArray r.options ++ "\x7d")

/-- JSON bytes of a `WithdrawReq`. -/
def WithdrawReq.jsonBytes (r : WithdrawReq) : List Nat :=
  strBytes ("\x7b\"request\":" ++ jsonStr r.base.request ++ ",\"nonce\":" ++ jsonInt r.base.nonce ++
    ",\"address\":" ++ jsonStr r.address ++ ",\"amount\":" ++ jsonStr r.amount ++ "\x7d")

/-- The Go `Request` interface, closed over the three payload shapes that
implement it in this repository. -/
inductive Request where
  | base (r : BaseRequest)
  | orderPlace (r : OrderPlaceReq)
  | withdraw (r : WithdrawReq)
  deriving DecidableEq, Repr

/-- Method `SetNonce`: store `n` in the (possibly embedded) `BaseRequest`. -/
def Request.setNonce : Request → Int → Request
  | .base r, n => .base { r with nonce := n }
  | .orderPlace r, n => .orderPlace { r with base := { r.base with nonce := n } }
  | .withdraw r, n => .withdraw { r with base := { r.base with nonce := n } }

/-- Method `GetRoute`: the `Request` field of the embedded `BaseRequest`. -/
def Request.getRoute : Request → String
  | .base r => r.request
  | .orderPlace r => r.base.request
  | .withdraw r => r.base.request

/-- Method `GetPayload`: `json.Marshal` of the concrete record. -/
def Request.getPayload : Request → List Nat
  | .base r => r.jsonBytes
  | .orderPlace r => r.jsonBytes
  | .withdraw r => r.jsonBytes

/-- The nonce currently stored in the request record. -/
def Request.getNonce : Request → Int
  | .base r => r.nonce
  | .orderPlace r => r.base.nonce
  | .withdraw r => r.base.nonce

/-! ## JSON unmarshalling of `GeminiError`

Model of `json.Unmarshal(body, &GeminiError{})` (gemini.go line 192): a JSON
object (or `null`) whose keys matching `result` / `reason` / `message`
(ASCII-case-insensitively, as Go matches field names) must carry string
values; unknown keys may carry any JSON value and are ignored.  The untagged
`StatusCode` field is treated as an ignored key, since `AuthAPIReq` overwrites
it with the HTTP status immediately after decoding.  Strings must be valid
UTF-8 (Go instead substitutes U+FFFD for invalid sequences; bodies that are
invalid UTF-8 are outside the scope of every claim). -/

/-- JSON insignificant whitespace bytes. -/
def isWsByte (b : Nat) : Bool := b == 32 || b == 9 || b == 10 || b == 13

/-- Drop leading JSON whitespace. -/
def skipWs : List Nat → List Nat
  | b :: rest => if isWsByte b then skipWs rest else b :: rest
  | [] => []

/-- Numeric value of a hex-digit byte. -/
def hexVal (b : Nat) : Option Nat :=
  if 48 ≤ b ∧ b ≤ 57 then some (b - 48)
  else if 97 ≤ b ∧ b ≤ 102 then some (b - 87)
  else if 65 ≤ b ∧ b ≤ 70 then some (b - 55)
  else none

/-- Decode the body of a JSON string literal (after the opening quote), up to
and including the closing quote; yields the characters and the remaining
bytes. -/
def parseStrBody : Nat → List Nat → Option (List Char × List Nat)
  | 0, _ => none
  | _ + 1, [] => none
  | fuel + 1, b :: rest =>
    if b == 34 then some ([], rest)
    else if b == 92 then
      match rest with
      | 34 :: r => (parseStrBody fuel r).map (fun p => ('"' :: p.1, p.2))
      | 92 :: r => (parseStrBody fuel r).map (fun p => ('\\' :: p.1, p.2))
      | 47 :: r => (parseStrBody fuel r).map (fun p => ('/' :: p.1, p.2))
      | 98 :: r => (parseStrBody fuel r).map (fun p => (Char.ofNat 8 :: p.1, p.2))
      | 102 :: r => (parseStrBody fuel r).map (fun p => (Char.ofNat 12 :: p.1, p.2))
      | 110 :: r => (parseStrBody fuel r).map (fun p => ('\n' :: p.1, p.2))
      | 114 :: r => (parseStrBody fuel r).map (fun p => ('\r' :: p.1, p.2))
      | 116 :: r => (parseStrBody fuel r).map (fun p => ('\t' :: p.1, p.2))
      | 117 :: h1 :: h2 :: h3 :: h4 :: r =>
        match hexVal h1, hexVal h2, hexVal h3, hexVal h4 with
        | some d1, some d2, some d3, some d4 =>
          let code := ((d1 * 16 + d2) * 16 + d3) * 16 + d4
          if 0xD800 ≤ code ∧ code < 0xE000 then none
          else (parseStrBody fuel r).map (fun p => (Char.ofNat code :: p.1, p.2))
        | _, _, _, _ => none
      | _ => none
    else if b < 0x20 then none
    else if b < 0x80 then (parseStrBody fuel rest).map (fun p => (Char.ofNat b :: p.1, p.2))
    else if 0xC2 ≤ b ∧ b ≤ 0xDF then
      match rest with
      | c1 :: r =>
        if 0x80 ≤ c1 ∧ c1 ≤ 0xBF then
          (parseStrBody fuel r).map
            (fun p => (Char.ofNat ((b - 0xC0) * 64 + (c1 - 0x80)) :: p.1, p.2))
        else none
      | _ => none
    else if 0xE0 ≤ b ∧ b ≤ 0xEF then
      match rest with
      | c1 :: c2 :: r =>
        let code := ((b - 0xE0) * 64 + (c1 - 0x80)) * 64 + (c2 - 0x80)
        if 0x80 ≤ c1 ∧ c1 ≤ 0xBF ∧ 0x80 ≤ c2 ∧ c2 ≤ 0xBF ∧ 0x800 ≤ code ∧
            ¬ (0xD800 ≤ code ∧ code < 0xE000) then
          (parseStrBody fuel r).map (fun p => (Char.ofNat code :: p.1, p.2))
        else none
      | _ => none
    else if 0xF0 ≤ b ∧ b ≤ 0xF4 then
      match rest with
      | c1 :: c2 :: c3 :: r =>
        let code := (((b - 0xF0) * 64 + (c1 - 0x80)) * 64 + (c2 - 0x80)) * 64 + (c3 - 0x80)
        if 0x80 ≤ c1 ∧ c1 ≤ 0xBF ∧ 0x80 ≤ c2 ∧ c2 ≤ 0xBF ∧ 0x80 ≤ c3 ∧ c3 ≤ 0xBF ∧
            0x10000 ≤ code ∧ code ≤ 0x10FFFF then
          (parseStrBody fuel r).map (fun p => (Char.ofNat code :: p.1, p.2))
        else none
      | _ => none
    else none

/-- Skip the digits of a JSON fraction part, if present. -/
def skipFrac (l : List Nat) : Option (List Nat) :=
  match l with
  | 46 :: r =>
    let p := r.span (fun b => 48 ≤ b && b ≤ 57)
    if p.1.isEmpty then none else some p.2
  | _ => some l

/-- Skip a JSON exponent part, if present. -/
def skipExp (l : List Nat) : Option (List Nat) :=
  match l with
  | e :: r =>
    if e == 101 ∨ e == 69 then
      let r1 := match r with
        | s :: r2 => if s == 43 ∨ s == 45 then r2 else r
        | [] => r
      let p := r1.span (fun b => 48 ≤ b && b ≤ 57)
      if p.1.isEmpty then none else some p.2
    else some l
  | [] => some l

/-- Skip a JSON number literal (grammar of RFC 8259). -/
def skipNumber (l : List Nat) : Option (List Nat) :=
  let l1 := match l with | 45 :: r => r | _ => l
  match l1 with
  | 48 :: r => (skipFrac r).bind skipExp
  | b :: r =>
    if 49 ≤ b ∧ b ≤ 57 then
      ((r.dropWhile (fun x => 48 ≤ x && x ≤ 57) : List Nat) |> skipFrac).bind skipExp
    else none
  | [] => none

mutual

/-- Skip one JSON value, returning the remaining bytes. -/
def skipValue : Nat → List Nat → Option (List Nat)
  | 0, _ => none
  | fuel + 1, l =>
    match skipWs l with
    | 34 :: rest => (parseStrBody (fuel + 1) rest).map (fun p => p.2)
    | 116 :: 114 :: 117 :: 101 :: rest => some rest
    | 102 :: 97 :: 108 :: 115 :: 101 :: rest => some rest
    | 110 :: 117 :: 108 :: 108 :: rest => some rest
    | 123 :: rest => skipMembers fuel rest
    | 91 :: rest => skipElements fuel rest
    | l1 => skipNumber l1

/-- Skip the members of a JSON object, starting after the opening brace, up to
and including the closing brace. -/
def skipMembers : Nat → List Nat → Option (List Nat)
  | 0, _ => none
  | fuel + 1, l =>
    match skipWs l with
    | 125 :: rest => some rest
    | 34 :: rest =>
      (parseStrBody (fuel + 1) rest).bind fun p =>
        match skipWs p.2 with
        | 58 :: r2 =>
          (skipValue fuel r2).bind fun r3 =>
            match skipWs r3 with
            | 44 :: r4 =>
              match skipWs r4 with
              | 34 :: r5 => skipMembers fuel (34 :: r5)
              | _ => none
            | 125 :: r4 => some r4
            | _ => none
        | _ => none
    | _ => none

/-- Skip the elements of a JSON array, starting after the opening bracket, up
to and including the closing bracket. -/
def skipElements : Nat → List Nat → Option (List Nat)
  | 0, _ => none
  | fuel + 1, l =>
    match skipWs l with
    | 93 :: rest => some rest
    | l1 =>
      (skipValue fuel l1).bind fun r =>
        match skipWs r with
        | 44 :: r2 => skipElements fuel r2
        | 93 :: r2 => some r2
        | _ => none

end

/-- ASCII-lowercase a character, modelling Go's case-insensitive matching of
JSON keys to struct field names (field names here are ASCII). -/
def asciiLower (c : Char) : Char :=
  if 65 ≤ c.toNat ∧ c.toNat ≤ 90 then Char.ofNat (c.toNat + 32) else c

/-- Parse the members of the error object (after the opening brace), folding
matching keys into the record. -/
def parseErrMembers : Nat → List Nat → GeminiError → Option (GeminiError × List Nat)
  | 0, _, _ => none
  | fuel + 1, l, acc =>
    match skipWs l with
    | 125 :: rest => some (acc, rest)
    | 34 :: rest =>
      (parseStrBody (fuel + 1) rest).bind fun p =>
        let key := String.mk (p.1.map asciiLower)
        match skipWs p.2 with
        | 58 :: r2 =>
          let step : Option (GeminiError × List Nat) :=
            if key = "result" ∨ key = "reason" ∨ key = "message" then
              match skipWs r2 with
              | 34 :: r3 =>
                (parseStrBody (fuel + 1) r3).map fun q =>
                  let v := String.mk q.1
                  (if key = "result" then { acc with result := v }
                   else if key = "reason" then { acc with reason := v }
                   else { acc with message := v }, q.2)
              | _ => none
            else (skipValue (fuel + 1) r2).map fun r3 => (acc, r3)
          step.bind fun st =>
            match skipWs st.2 with
            | 44 :: r4 =>
              match skipWs r4 with
              | 34 :: r5 => parseErrMembers fuel (34 :: r5) st.1
              | _ => none
            | 125 :: r4 => some (st.1, r4)
            | _ => none
        | _ => none
    | _ => none

/-- Model of `json.Unmarshal(body, &GeminiError{})`: `some` of the decoded
record on success (`StatusCode` left at its zero value), `none` when Go would
report a decoding error. -/
def decodeGeminiError (body : List Nat) : Option GeminiError :=
  match skipWs body with
  | 110 :: 117 :: 108 :: 108 :: rest =>
    if (skipWs rest).isEmpty then some { result := "", reason := "", message := "", statusCode := 0 }
    else none
  | 123 :: rest =>
    (parseErrMembers (body.length + 1) rest
        { result := "", reason := "", message := "", statusCode := 0 }).bind
      fun p => if (skipWs p.2).isEmpty then some p.1 else none
  | _ => none


/-! ## HTTP model and the signing-and-POST routine (`AuthAPIReq`) -/

/-- An outgoing HTTP request as built by `AuthAPIReq` (method, URL, body and
the headers added via `req.Header.Add`). -/
structure HttpRequest where
  method : String
  url : String
  body : Option (List Nat)
  headers : List (String × String)
  deriving DecidableEq, Repr

/-- Outcome of sending a request.  `failure` stands for any of the swallowed
I/O failure paths of `AuthAPIReq` (a `http.NewRequest` error, a `client.Do`
error, or an `ioutil.ReadAll` error); `success` carries the response status
code and the fully read body. -/
inductive TransportResult where
  | failure
  | success (status : Nat) (body : List Nat)
  deriving DecidableEq, Repr

/-- The transport oracle: what the network answers to a given request. -/
abbrev Transport := HttpRequest → TransportResult

/-- Errors that `AuthAPIReq` can return: the structured `GeminiError` for
error statuses with decodable bodies, or the `json.Unmarshal` error when the
error body does not decode. -/
inductive ApiFailure where
  | geminiError (e : GeminiError)
  | decodeError
  deriving DecidableEq, Repr

/-- Observable outcome of one `AuthAPIReq` call: the updated client, the
request record after `SetNonce` (whose serialization is the signed payload),
the wire request, and the Go return value (`body, err`). -/
structure AuthResult where
  state : GeminiAPI
  sent : Request
  httpReq : HttpRequest
  result : Except ApiFailure (List Nat)
  deriving Repr

/-- The wire request `AuthAPIReq` constructs: `POST {base}{route}` with a nil
body (gemini.go line 163) and the three auth headers, the payload header being
the base64 of the JSON payload and the signature header the lowercase-hex
HMAC-SHA384 of that base64 string under the API secret (lines 168-176). -/
def GeminiAPI.authHttpRequest (ga : GeminiAPI) (r : Request) : HttpRequest :=
  let r1 := r.setNonce ga.nonce
  let reqURL := ga.baseURL ++ r1.getRoute
  let payload := r1.getPayload
  let base64Payload := base64Encode payload
  let sig := hmacSha384 (strBytes ga.apiSecret) (strBytes base64Payload)
  { method := "POST", url := reqURL, body := none,
    headers := [("X-GEMINI-APIKEY", ga.apiKey),
                ("X-GEMINI-PAYLOAD", base64Payload),
                ("X-GEMINI-SIGNATURE", hexEncode sig)] }

/-- Model of `AuthAPIReq` (gemini.go lines 158-202).  The nonce is stored into
the request and then incremented (lines 160-161) before anything else; on any
transport failure the function logs and returns an empty body with a nil
error (lines 164-167, 178-181, 184-187); on a status above 399 it decodes the
body as a `GeminiError`, returning the `json.Unmarshal` error when decoding
fails and otherwise the structured error with the response status attached
(lines 190-199); on success it returns the raw body. -/
def GeminiAPI.authAPIReq (ga : GeminiAPI) (r : Request) (transport : Transport) : AuthResult :=
  let r1 := r.setNonce ga.nonce
  let ga1 := { ga with nonce := ga.nonce + 1 }
  let req := ga.authHttpRequest r
  { state := ga1, sent := r1, httpReq := req,
    result :=
      match transport req with
      | .failure => .ok []
      | .success status body =>
        if 399 < status then
          match decodeGeminiError body with
          | none => .error .decodeError
          | some e => .error (.geminiError { e with statusCode := status })
        else .ok body }

/-! ## Decimal formatting (`fmt.Sprintf` with a fixed precision)

Model of Go's `%0.Nf` on finite values.  The numeric arguments are rationals
(every finite `float64` is a rational; NaN and the infinities, which Go prints
without any decimal point, are not representable and are outside the scope of
the formatting claims).  Go rounds the exact value to `N` decimal digits with
ties to even, prints a minus sign for negative values, the integer part with
no padding, and exactly `N` fractional digits. -/

/-- Round the fraction `a / d` (with `d > 0`) to the nearest natural number,
ties to even. -/
def roundHalfEvenNat (a d : Nat) : Nat :=
  let q := a / d
  let r := a % d
  if 2 * r < d then q
  else if d < 2 * r then q + 1
  else if q % 2 = 0 then q else q + 1

/-- The `prec` decimal digits of `m < 10 ^ prec`, most significant first. -/
def fracDigitChars (prec m : Nat) : List Char :=
  (List.range prec).map (fun i => digitChar (m / 10 ^ (prec - 1 - i) % 10))

/-- Characters of `fmt.Sprintf` with verb `%0.{prec}f` applied to `x`. -/
def formatFixedChars (prec : Nat) (x : ℚ) : List Char :=
  let sign := if x.num < 0 then ['-'] else []
  let n := roundHalfEvenNat (x.num.natAbs * 10 ^ prec) x.den
  sign ++ natDigits (n / 10 ^ prec) ++
    (if prec = 0 then [] else '.' :: fracDigitChars prec (n % 10 ^ prec))

/-- String form of fixed-precision formatting. -/
def formatFixed (prec : Nat) (x : ℚ) : String := String.mk (formatFixedChars prec x)

/-! ## API operations -/

/-- Constructor `NewGeminiAPI`: stores the configuration and seeds the nonce
with the current wall-clock time in nanoseconds, passed here as an explicit
argument. -/
def newGeminiAPI (baseurl apikey apisecret : String) (timeNowUnixNano : Int) : GeminiAPI :=
  { baseURL := baseurl, apiKey := apikey, apiSecret := apisecret, nonce := timeNowUnixNano }

/-- Method `GetTicker`: a plain GET of `/v1/pubticker/{pair}`; the client
state is read but never written.  Decoding of the response body into a
`Ticker` affects no claim and is not modelled. -/
def GeminiAPI.getTicker (ga : GeminiAPI) (pair : String) : GeminiAPI × HttpRequest :=
  (ga, { method := "GET", url := ga.baseURL ++ "/v1/pubticker/" ++ pair,
         body := none, headers := [] })

/-- Method `GetOrderbook`: a plain GET of `/v1/book/{pair}?limit_bids=N&limit_asks=N`;
the client state is read but never written. -/
def GeminiAPI.getOrderbook (ga : GeminiAPI) (pair : String) (bidLimit askLimit : Int) :
    GeminiAPI × HttpRequest :=
  (ga, { method := "GET",
         url := ga.baseURL ++ "/v1/book/" ++ pair ++ "?limit_bids=" ++
           String.mk (intChars bidLimit) ++ "&limit_asks=" ++ String.mk (intChars askLimit),
         body := none, headers := [] })

/-- Method `GetFunds`: a `BaseRequest` for route `/v1/balances` through
`AuthAPIReq`.  Decoding of the success body into `[]Fund` affects no claim
and is not modelled; errors pass through unchanged. -/
def GeminiAPI.getFunds (ga : GeminiAPI) (transport : Transport) : AuthResult :=
  ga.authAPIReq (.base (newBaseRequest "/v1/balances")) transport

/-- Method `GetOrderStatus`: a `BaseRequest` for route `/v1/orders` through
`AuthAPIReq`. -/
def GeminiAPI.getOrderStatus (ga : GeminiAPI) (transport : Transport) : AuthResult :=
  ga.authAPIReq (.base (newBaseRequest "/v1/orders")) transport

/-- Method `CancelAll` (gemini.go lines 308-311): issues the session-cancel
request and discards both the body and the error; only the state change is
observable. -/
def GeminiAPI.cancelAll (ga : GeminiAPI) (transport : Transport) : GeminiAPI :=
  (ga.authAPIReq (.base (newBaseRequest "/v1/order/cancel/session")) transport).state

/-- Method `Withdraw` (gemini.go lines 269-288): amount formatted `%0.8f`,
route `/v1/withdraw/{currency}`. -/
def GeminiAPI.withdraw (ga : GeminiAPI) (currency address : String) (amount : ℚ)
    (transport : Transport) : AuthResult :=
  let amountStr := formatFixed 8 amount
  let input : WithdrawReq :=
    { base := newBaseRequest ("/v1/withdraw/" ++ currency),
      address := address, amount := amountStr }
  ga.authAPIReq (.withdraw input) transport

/-- Result of `PlaceLimitOrder`: either the local unsupported-pair error
(returned before any request is issued) or the outcome of the issued request. -/
inductive PlaceOrderResult where
  | unsupportedPair
  | issued (res : AuthResult)
  deriving Repr

/-- Method `PlaceLimitOrder` (gemini.go lines 314-347): amount formatted
`%0.8f`; price formatted `%0.2f` for pairs btcusd and ethusd, `%0.5f` for
ethbtc, and for any other pair the unsupported-pair error is returned with the
state untouched; otherwise an `OrderPlaceReq` with order type
exchange limit goes through `AuthAPIReq`. -/
def GeminiAPI.placeLimitOrder (ga : GeminiAPI) (side pair clientId : String)
    (amount price : ℚ) (options : List String) (transport : Transport) :
    GeminiAPI × PlaceOrderResult :=
  let amountStr := formatFixed 8 amount
  if pair = "btcusd" ∨ pair = "ethusd" then
    let orderReq : OrderPlaceReq :=
      { base := newBaseRequest "/v1/order/new", symbol := pair, amount := amountStr,
        price := formatFixed 2 price, side := side, type := "exchange limit",
        clientId := clientId, options := options }
    let res := ga.authAPIReq (.orderPlace orderReq) transport
    (res.state, .issued res)
  else if pair = "ethbtc" then
    let orderReq : OrderPlaceReq :=
      { base := newBaseRequest "/v1/order/new", symbol := pair, amount := amountStr,
        price := formatFixed 5 price, side := side, type := "exchange limit",
        clientId := clientId, options := options }
    let res := ga.authAPIReq (.orderPlace orderReq) transport
    (res.state, .issued res)
  else (ga, .unsupportedPair)

/-! ## Specification-side definitions

These definitions are written from the specification's words, to be compared
against the source-derived definitions above. -/

/-- The signature pipeline exactly as the specification words it: serialize
the payload to JSON, base64-encode the JSON bytes, compute HMAC-SHA384 over
the base64 string with the API secret as key, render the digest as hex. -/
def specSignature (secret : String) (payloadJsonBytes : List Nat) : String :=
  hexEncode (hmacSha384 (strBytes secret) (strBytes (base64Encode payloadJsonBytes)))

/-- The lowercase hexadecimal alphabet. -/
def lowerHexAlphabet : List Char := "0123456789abcdef".data

/-- The suffix of a character list after the first dot, when a dot occurs. -/
def suffixAfterDot : List Char → Option (List Char)
  | [] => none
  | c :: rest => if c = '.' then some rest else suffixAfterDot rest

/-- Whether `s` is written with exactly `n` decimal places: a dot occurs, and
what follows the first dot is exactly `n` decimal digits. -/
def hasDecimalPlaces (s : String) (n : Nat) : Bool :=
  match suffixAfterDot s.data with
  | some l => l.length == n && l.all (fun c => c.isDigit)
  | none => false

/-- The value of a header list at the first occurrence of a name. -/
def headerValue (headers : List (String × String)) (name : String) : Option String :=
  (headers.find? (fun h => h.1 = name)).map (fun h => h.2)

/-- The strictly increasing integer sequence of length `n` starting at
`start`, the specification's description of the nonces a client issues. -/
def nonceSeq (start : Int) : Nat → List Int
  | 0 => []
  | n + 1 => start :: nonceSeq (start + 1) n

/-- Run a sequence of authenticated calls through `AuthAPIReq` on one client,
threading the state and recording the nonce stored in each signed payload. -/
def runAuth : GeminiAPI → List (Request × Transport) → GeminiAPI × List Int
  | ga, [] => (ga, [])
  | ga, (r, t) :: rest =>
    let res := ga.authAPIReq r t
    let tail := runAuth res.state rest
    (tail.1, res.sent.getNonce :: tail.2)

/-! ## Concrete instances used by witnesses and counterexamples -/

/-- A concrete client configuration. -/
def testClient : GeminiAPI :=
  { baseURL := "https://api.sandbox.gemini.com", apiKey := "mykey",
    apiSecret := "1234abcd", nonce := 1712345678901234567 }

/-- A transport that always answers 200 with an empty body. -/
def okTransport : Transport := fun _ => .success 200 []

/-- A transport that always fails (connection error). -/
def failTransport : Transport := fun _ => .failure

/-- A well-formed API error body. -/
def errBody : List Nat :=
  strBytes "\x7b\"result\":\"error\",\"reason\":\"InvalidNonce\",\"message\":\"Nonce not increasing\"\x7d"

/-- A transport that always answers 400 with the well-formed error body. -/
def err400Transport : Transport := fun _ => .success 400 errBody

/-- A transport that always answers 500 with a non-JSON body. -/
def badBodyTransport : Transport := fun _ => .success 500 (strBytes "<html>oops</html>")

/-- A transport that always answers 404 with the same non-JSON body. -/
def badBody404Transport : Transport := fun _ => .success 404 (strBytes "<html>oops</html>")

/-! ## Accessors used by claim statements -/

/-- Whether a `PlaceLimitOrder` outcome is the local unsupported-pair error. -/
def PlaceOrderResult.isUnsupported : PlaceOrderResult → Bool
  | .unsupportedPair => true
  | .issued _ => false

/-- The signed request of an issued `PlaceLimitOrder` outcome. -/
def PlaceOrderResult.sentRequest : PlaceOrderResult → Option Request
  | .unsupportedPair => none
  | .issued res => some res.sent

/-- The amount string carried by a request payload, when it has one. -/
def Request.amountField : Request → Option String
  | .base _ => none
  | .orderPlace r => some r.amount
  | .withdraw r => some r.amount

/-- The price string carried by a request payload, when it has one. -/
def Request.priceField : Request → Option String
  | .base _ => none
  | .orderPlace r => some r.price
  | .withdraw _ => none

/-! ## Supporting lemmas -/

theorem setNonce_getNonce (r : Request) (n : Int) : (r.setNonce n).getNonce = n := by
  cases r <;> rfl

theorem setNonce_getRoute (r : Request) (n : Int) : (r.setNonce n).getRoute = r.getRoute := by
  cases r <;> rfl

theorem authAPIReq_state (ga : GeminiAPI) (r : Request) (t : Transport) :
    (ga.authAPIReq r t).state = { ga with nonce := ga.nonce + 1 } := rfl

theorem authAPIReq_sent (ga : GeminiAPI) (r : Request) (t : Transport) :
    (ga.authAPIReq r t).sent = r.setNonce ga.nonce := rfl

theorem digitChar_isDigit (d : Nat) (hd : d < 10) : (digitChar d).isDigit = true := by
  interval_cases d <;> decide

theorem isDigit_ne_dot (c : Char) (hc : c.isDigit = true) : ¬ c = '.' := by
  intro h
  subst h
  simp [Char.isDigit] at hc

theorem natDigitsAux_isDigit (fuel : Nat) : ∀ n, ∀ c ∈ natDigitsAux fuel n, c.isDigit = true := by
  induction fuel with
  | zero => intro n c hc; simp [natDigitsAux] at hc
  | succ fuel ih =>
    intro n c hc
    simp only [natDigitsAux] at hc
    split at hc
    · simp only [List.mem_singleton] at hc
      subst hc
      exact digitChar_isDigit n (by omega)
    · rcases List.mem_append.1 hc with h | h
      · exact ih (n / 10) c h
      · simp only [List.mem_singleton] at h
        subst h
        exact digitChar_isDigit _ (Nat.mod_lt _ (by omega))

theorem natDigits_isDigit (n : Nat) : ∀ c ∈ natDigits n, c.isDigit = true :=
  natDigitsAux_isDigit (n + 1) n

theorem fracDigitChars_length (prec m : Nat) : (fracDigitChars prec m).length = prec := by
  simp [fracDigitChars]

theorem fracDigitChars_isDigit (prec m : Nat) : ∀ c ∈ fracDigitChars prec m, c.isDigit = true := by
  intro c hc
  simp only [fracDigitChars, List.mem_map] at hc
  obtain ⟨i, _, rfl⟩ := hc
  exact digitChar_isDigit _ (Nat.mod_lt _ (by omega))

theorem suffixAfterDot_append (l1 l2 : List Char) (h : ∀ c ∈ l1, ¬ c = '.') :
    suffixAfterDot (l1 ++ '.' :: l2) = some l2 := by
  induction l1 with
  | nil => simp [suffixAfterDot]
  | cons a as ih =>
    simp only [List.cons_append, suffixAfterDot]
    rw [if_neg (h a (List.mem_cons_self a as))]
    exact ih (fun c hc => h c (List.mem_cons_of_mem a hc))

/-- The central formatting fact: `%0.{prec}f` output has exactly `prec`
decimal places for every rational value, when `prec` is positive. -/
theorem formatFixed_decimalPlaces (prec : Nat) (hp : 0 < prec) (x : ℚ) :
    hasDecimalPlaces (formatFixed prec x) prec = true := by
  have hdot : ∀ c ∈ (if x.num < 0 then ['-'] else []) ++
      natDigits (roundHalfEvenNat (x.num.natAbs * 10 ^ prec) x.den / 10 ^ prec), ¬ c = '.' := by
    intro c hc
    rcases List.mem_append.1 hc with h | h
    · split at h
      · simp only [List.mem_singleton] at h
        subst h
        decide
      · simp at h
    · exact isDigit_ne_dot c (natDigits_isDigit _ c h)
  have hsuffix := suffixAfterDot_append _
    (fracDigitChars prec (roundHalfEvenNat (x.num.natAbs * 10 ^ prec) x.den % 10 ^ prec)) hdot
  have h1 : (formatFixed prec x).data =
      ((if x.num < 0 then ['-'] else []) ++
        natDigits (roundHalfEvenNat (x.num.natAbs * 10 ^ prec) x.den / 10 ^ prec)) ++
        '.' :: fracDigitChars prec (roundHalfEvenNat (x.num.natAbs * 10 ^ prec) x.den % 10 ^ prec) := by
    show formatFixedChars prec x = _
    simp [formatFixedChars, Nat.pos_iff_ne_zero.mp hp, List.append_assoc]
  unfold hasDecimalPlaces
  rw [h1, hsuffix]
  simp only [fracDigitChars_length, beq_self_eq_true, Bool.true_and, List.all_eq_true]
  exact fun c hc => fracDigitChars_isDigit _ _ c hc

theorem hexDigitChar_mem_lower (d : Nat) (hd : d < 16) : hexDigitChar d ∈ lowerHexAlphabet := by
  interval_cases d <;> decide

theorem hexEncode_lower (bs : List Nat) (h : ∀ b ∈ bs, b < 256) :
    ∀ c ∈ (hexEncode bs).data, c ∈ lowerHexAlphabet := by
  intro c hc
  have hc2 : c ∈ (bs.map (fun b => [hexDigitChar (b / 16), hexDigitChar (b % 16)])).flatten := hc
  simp only [List.mem_flatten, List.mem_map] at hc2
  obtain ⟨l, ⟨b, hb, rfl⟩, hcl⟩ := hc2
  have hb2 : b < 256 := h b hb
  simp only [List.mem_cons, List.not_mem_nil, or_false] at hcl
  rcases hcl with rfl | rfl
  · exact hexDigitChar_mem_lower _ (Nat.div_lt_of_lt_mul (by omega))
  · exact hexDigitChar_mem_lower _ (Nat.mod_lt _ (by omega))

theorem sha384_bytes_lt (msg : List Nat) : ∀ b ∈ sha384 msg, b < 256 := by
  intro b hb
  simp only [sha384, List.mem_flatten, List.mem_map] at hb
  obtain ⟨l, ⟨w, _, rfl⟩, hbl⟩ := hb
  simp only [bytesOfWord64, List.mem_map] at hbl
  obtain ⟨i, _, rfl⟩ := hbl
  exact Nat.mod_lt _ (by omega)

theorem hmacSha384_bytes_lt (key msg : List Nat) : ∀ b ∈ hmacSha384 key msg, b < 256 := by
  unfold hmacSha384
  exact sha384_bytes_lt _

theorem specSignature_lower (secret : String) (payload : List Nat) :
    ∀ c ∈ (specSignature secret payload).data, c ∈ lowerHexAlphabet :=
  hexEncode_lower _ (hmacSha384_bytes_lt _ _)

theorem nonceSeq_mem (n : Nat) : ∀ (start x : Int), x ∈ nonceSeq start n → start ≤ x := by
  induction n with
  | zero => intro start x hx; simp [nonceSeq] at hx
  | succ n ih =>
    intro start x hx
    rcases List.mem_cons.1 hx with rfl | hx
    · exact le_refl x
    · exact le_trans (by omega) (ih (start + 1) x hx)

theorem nonceSeq_pairwise_lt (n : Nat) : ∀ start : Int, (nonceSeq start n).Pairwise (· < ·) := by
  induction n with
  | zero => intro start; simp [nonceSeq]
  | succ n ih =>
    intro start
    refine List.Pairwise.cons ?_ (ih (start + 1))
    intro x hx
    exact lt_of_lt_of_le (by omega) (nonceSeq_mem n (start + 1) x hx)

theorem runAuth_trace (calls : List (Request × Transport)) :
    ∀ ga : GeminiAPI, (runAuth ga calls).2 = nonceSeq ga.nonce calls.length := by
  induction calls with
  | nil => intro ga; rfl
  | cons c rest ih =>
    intro ga
    obtain ⟨r, t⟩ := c
    show (ga.authAPIReq r t).sent.getNonce :: (runAuth (ga.authAPIReq r t).state rest).2 =
      ga.nonce :: nonceSeq (ga.nonce + 1) rest.length
    rw [authAPIReq_sent, setNonce_getNonce, ih (ga.authAPIReq r t).state, authAPIReq_state]

theorem authHttpRequest_sig (ga : GeminiAPI) (r : Request) :
    headerValue (ga.authHttpRequest r).headers "X-GEMINI-SIGNATURE" =
      some (specSignature ga.apiSecret (r.setNonce ga.nonce).getPayload) := by
  simp [GeminiAPI.authHttpRequest, headerValue, List.find?, specSignature]

/-! ## Claims -/

/-- C1: for every authenticated request, the signature header is exactly the
specification pipeline — HMAC-SHA384, keyed by the API secret, of the base64
of the JSON payload, rendered as lowercase hex — and for a fixed secret and
payload (nonce included) the signature is deterministic: it does not depend
on the transport or on any other client field. -/
theorem gemini_signature_pipeline (ga ga2 : GeminiAPI) (r r2 : Request) (t t2 : Transport)
    (hsec : ga.apiSecret = ga2.apiSecret)
    (hpay : (r.setNonce ga.nonce).getPayload = (r2.setNonce ga2.nonce).getPayload) :
    headerValue (ga.authAPIReq r t).httpReq.headers "X-GEMINI-SIGNATURE" =
      some (specSignature ga.apiSecret (r.setNonce ga.nonce).getPayload) ∧
    headerValue (ga.authAPIReq r t).httpReq.headers "X-GEMINI-SIGNATURE" =
      headerValue (ga2.authAPIReq r2 t2).httpReq.headers "X-GEMINI-SIGNATURE" ∧
    ∀ c ∈ (specSignature ga.apiSecret (r.setNonce ga.nonce).getPayload).data,
      c ∈ lowerHexAlphabet := by
  have h1 : (ga.authAPIReq r t).httpReq = ga.authHttpRequest r := rfl
  have h2 : (ga2.authAPIReq r2 t2).httpReq = ga2.authHttpRequest r2 := rfl
  refine ⟨h1 ▸ authHttpRequest_sig ga r, ?_, specSignature_lower _ _⟩
  rw [h1, h2, authHttpRequest_sig ga r, authHttpRequest_sig ga2 r2, hsec, hpay]

/-- Witness for C1 at a concrete client, request and two different
transports. -/
theorem gemini_signature_pipeline_witness :
    headerValue
        (testClient.authAPIReq (.base (newBaseRequest "/v1/balances")) okTransport).httpReq.headers
        "X-GEMINI-SIGNATURE" =
      some (specSignature testClient.apiSecret
        ((Request.base (newBaseRequest "/v1/balances")).setNonce testClient.nonce).getPayload) ∧
    headerValue
        (testClient.authAPIReq (.base (newBaseRequest "/v1/balances")) okTransport).httpReq.headers
        "X-GEMINI-SIGNATURE" =
      headerValue
        (testClient.authAPIReq (.base (newBaseRequest "/v1/balances")) failTransport).httpReq.headers
        "X-GEMINI-SIGNATURE" ∧
    ∀ c ∈ (specSignature testClient.apiSecret
        ((Request.base (newBaseRequest "/v1/balances")).setNonce testClient.nonce).getPayload).data,
      c ∈ lowerHexAlphabet :=
  gemini_signature_pipeline testClient testClient _ _ okTransport failTransport rfl rfl

/-- C2: every authenticated call stores the client's current nonce into the
payload and bumps the client's nonce by exactly one, so over any sequence of
authenticated calls on one client the payload nonces are the consecutive
integers starting at the client's nonce — strictly increasing, never
repeating. -/
theorem gemini_nonce_monotone (ga : GeminiAPI) (calls : List (Request × Transport)) :
    (∀ (r : Request) (t : Transport),
        (ga.authAPIReq r t).sent.getNonce = ga.nonce ∧
        (ga.authAPIReq r t).state.nonce = ga.nonce + 1) ∧
    (runAuth ga calls).2 = nonceSeq ga.nonce calls.length ∧
    (runAuth ga calls).2.Pairwise (· < ·) ∧
    (runAuth ga calls).2.Nodup := by
  refine ⟨fun r t => ⟨by rw [authAPIReq_sent, setNonce_getNonce], by rw [authAPIReq_state]⟩,
    runAuth_trace calls ga, ?_, ?_⟩
  · rw [runAuth_trace calls ga]
    exact nonceSeq_pairwise_lt _ _
  · rw [runAuth_trace calls ga]
    exact (nonceSeq_pairwise_lt _ _).imp ne_of_lt

/-- C7: every authenticated request goes out as a POST to the base URL
concatenated with the payload's route, with no request body and exactly the
three auth headers: the raw API key, the base64 payload, and the hex
signature. -/
theorem gemini_wire_request (ga : GeminiAPI) (r : Request) (t : Transport) :
    (ga.authAPIReq r t).httpReq = ga.authHttpRequest r ∧
    ga.authHttpRequest r =
      { method := "POST", url := ga.baseURL ++ r.getRoute, body := none,
        headers := [("X-GEMINI-APIKEY", ga.apiKey),
                    ("X-GEMINI-PAYLOAD", base64Encode (r.setNonce ga.nonce).getPayload),
                    ("X-GEMINI-SIGNATURE",
                      specSignature ga.apiSecret (r.setNonce ga.nonce).getPayload)] } ∧
    (ga.authHttpRequest r).headers.length = 3 := by
  refine ⟨rfl, ?_, rfl⟩
  simp [GeminiAPI.authHttpRequest, specSignature, setNonce_getRoute]

/-- The result field of `AuthAPIReq`, written out by cases on the transport. -/
theorem authAPIReq_result (ga : GeminiAPI) (r : Request) (t : Transport) :
    (ga.authAPIReq r t).result =
      match t (ga.authHttpRequest r) with
      | .failure => .ok []
      | .success status body =>
        if 399 < status then
          match decodeGeminiError body with
          | none => .error .decodeError
          | some e => .error (.geminiError { e with statusCode := status })
        else .ok body := rfl

/-- C5: an authenticated request answered with a status of at least 400 and a
well-formed error body fails with the structured error whose result, reason
and message come from the body, and whose status-code field is the HTTP
status of the response. -/
theorem gemini_error_status_structured (ga : GeminiAPI) (r : Request) (t : Transport)
    (status : Nat) (body : List Nat) (e : GeminiError)
    (hresp : t (ga.authHttpRequest r) = .success status body)
    (hstatus : 400 ≤ status)
    (hdec : decodeGeminiError body = some e) :
    (ga.authAPIReq r t).result =
      .error (.geminiError
        { result := e.result, reason := e.reason, message := e.message, statusCode := status }) := by
  rw [authAPIReq_result, hresp]
  dsimp only
  rw [if_pos (by omega : 399 < status), hdec]

/-- Witness for C5: a 400 response with a well-formed error body. -/
theorem gemini_error_status_structured_witness :
    err400Transport
        (testClient.authHttpRequest (.base (newBaseRequest "/v1/balances"))) =
      .success 400 errBody ∧
    400 ≤ 400 ∧
    decodeGeminiError errBody =
      some { result := "error", reason := "InvalidNonce",
             message := "Nonce not increasing", statusCode := 0 } ∧
    (testClient.authAPIReq (.base (newBaseRequest "/v1/balances")) err400Transport).result =
      .error (.geminiError
        { result := "error", reason := "InvalidNonce",
          message := "Nonce not increasing", statusCode := 400 }) :=
  ⟨rfl, by omega, by decide,
    gemini_error_status_structured testClient (.base (newBaseRequest "/v1/balances"))
      err400Transport 400 errBody
      { result := "error", reason := "InvalidNonce",
        message := "Nonce not increasing", statusCode := 0 }
      rfl (by omega) (by decide)⟩

/-- C10: when the error-status body does not decode as an API error document,
the call returns the JSON decode error, not a structured API error, and the
HTTP status code is not reported: the result is the same whatever the (at
least 400) status was. -/
theorem gemini_undecodable_error_body (ga : GeminiAPI) (r : Request) (t : Transport)
    (status : Nat) (body : List Nat)
    (hresp : t (ga.authHttpRequest r) = .success status body)
    (hstatus : 400 ≤ status)
    (hdec : decodeGeminiError body = none) :
    (ga.authAPIReq r t).result = .error .decodeError ∧
    ∀ (t2 : Transport) (status2 : Nat), t2 (ga.authHttpRequest r) = .success status2 body →
      400 ≤ status2 → (ga.authAPIReq r t2).result = (ga.authAPIReq r t).result := by
  have h1 : (ga.authAPIReq r t).result = .error .decodeError := by
    rw [authAPIReq_result, hresp]
    dsimp only
    rw [if_pos (by omega : 399 < status), hdec]
  refine ⟨h1, fun t2 status2 h2 hs2 => ?_⟩
  rw [h1, authAPIReq_result, h2]
  dsimp only
  rw [if_pos (by omega : 399 < status2), hdec]

/-- Witness for C10: a 500 and a 404 response with the same non-JSON body
yield the same decode error. -/
theorem gemini_undecodable_error_body_witness :
    badBodyTransport (testClient.authHttpRequest (.base (newBaseRequest "/v1/balances"))) =
      .success 500 (strBytes "<html>oops</html>") ∧
    400 ≤ 500 ∧
    decodeGeminiError (strBytes "<html>oops</html>") = none ∧
    (testClient.authAPIReq (.base (newBaseRequest "/v1/balances")) badBodyTransport).result =
      .error .decodeError ∧
    (testClient.authAPIReq (.base (newBaseRequest "/v1/balances")) badBody404Transport).result =
      (testClient.authAPIReq (.base (newBaseRequest "/v1/balances")) badBodyTransport).result :=
  ⟨rfl, by omega, by decide,
    (gemini_undecodable_error_body testClient (.base (newBaseRequest "/v1/balances"))
      badBodyTransport 500 (strBytes "<html>oops</html>") rfl (by omega) (by decide)).1,
    (gemini_undecodable_error_body testClient (.base (newBaseRequest "/v1/balances"))
      badBodyTransport 500 (strBytes "<html>oops</html>") rfl (by omega) (by decide)).2
      badBody404Transport 404 rfl (by omega)⟩

/-- Whether an `AuthAPIReq` result is a non-error (body) result. -/
def resultIsOk : Except ApiFailure (List Nat) → Bool
  | .ok _ => true
  | .error _ => false

/-- C4 counterexample: on a transport failure (for instance a connection
error), `AuthAPIReq` returns an empty body together with a nil error
(gemini.go lines 178-181), so the network error is not returned to the
caller, contrary to the claim that every error is returned. -/
theorem gemini_transport_error_swallowed :
    (testClient.authAPIReq (.base (newBaseRequest "/v1/balances")) failTransport).result =
      .ok [] := rfl

/-- C4 (amended): errors arising from HTTP statuses of 400 and above and the
local unsupported-pair validation are returned to the caller, and nothing is
retried; but transport-level failures inside `AuthAPIReq` are logged and
swallowed, the caller receiving an empty body and a nil error; `CancelAll`
discards even that, its only observable effect being the state change. -/
theorem gemini_error_propagation (ga : GeminiAPI) (r : Request) (t : Transport)
    (status : Nat) (body : List Nat) :
    (t (ga.authHttpRequest r) = .failure → (ga.authAPIReq r t).result = .ok []) ∧
    (t (ga.authHttpRequest r) = .success status body → 400 ≤ status →
      resultIsOk (ga.authAPIReq r t).result = false) ∧
    (t (ga.authHttpRequest r) = .success status body → status < 400 →
      (ga.authAPIReq r t).result = .ok body) ∧
    (∀ side clientId pair : String, ∀ amount price : ℚ, ∀ options : List String,
      ¬ (pair = "btcusd" ∨ pair = "ethusd" ∨ pair = "ethbtc") →
      (ga.placeLimitOrder side pair clientId amount price options t).2 = .unsupportedPair) ∧
    ga.cancelAll t = (ga.authAPIReq (.base (newBaseRequest "/v1/order/cancel/session")) t).state := by
  refine ⟨?_, ?_, ?_, ?_, rfl⟩
  · intro h
    rw [authAPIReq_result, h]
  · intro h hs
    rw [authAPIReq_result, h]
    dsimp only
    rw [if_pos (by omega : 399 < status)]
    cases hdec : decodeGeminiError body <;> rfl
  · intro h hs
    rw [authAPIReq_result, h]
    dsimp only
    rw [if_neg (by omega : ¬ 399 < status)]
  · intro side clientId pair amount price options hpair
    have h1 : ¬ (pair = "btcusd" ∨ pair = "ethusd") := by tauto
    have h2 : ¬ pair = "ethbtc" := by tauto
    simp [GeminiAPI.placeLimitOrder, h1, h2]

/-- Witness for C4 at concrete transports: a swallowed connection failure, a
returned 400 error, a passed-through 200 body, a returned local validation
error, and the state-only effect of `CancelAll`. -/
theorem gemini_error_propagation_witness :
    (testClient.authAPIReq (.base (newBaseRequest "/v1/orders")) failTransport).result = .ok [] ∧
    resultIsOk (testClient.authAPIReq (.base (newBaseRequest "/v1/orders")) err400Transport).result
      = false ∧
    (testClient.authAPIReq (.base (newBaseRequest "/v1/orders")) okTransport).result = .ok [] ∧
    (testClient.placeLimitOrder "buy" "dogeusd" "c1" (mkRat 1 2) (mkRat 1 2) [] okTransport).2 =
      .unsupportedPair ∧
    testClient.cancelAll okTransport =
      (testClient.authAPIReq (.base (newBaseRequest "/v1/order/cancel/session")) okTransport).state :=
  ⟨(gemini_error_propagation testClient (.base (newBaseRequest "/v1/orders"))
      failTransport 0 []).1 rfl,
    (gemini_error_propagation testClient (.base (newBaseRequest "/v1/orders"))
      err400Transport 400 errBody).2.1 rfl (by omega),
    (gemini_error_propagation testClient (.base (newBaseRequest "/v1/orders"))
      okTransport 200 []).2.2.1 rfl (by omega),
    (gemini_error_propagation testClient (.base (newBaseRequest "/v1/orders"))
      okTransport 200 []).2.2.2.1 "buy" "c1" "dogeusd" (mkRat 1 2) (mkRat 1 2) [] (by decide),
    (gemini_error_propagation testClient (.base (newBaseRequest "/v1/orders"))
      okTransport 200 []).2.2.2.2⟩

/-- C3 counterexample: the pair ethusd differs from both btcusd and ethbtc,
yet `PlaceLimitOrder` accepts it (gemini.go line 317 treats it like btcusd)
instead of returning the unsupported-pair error the claim requires for every
pair other than those two. -/
theorem gemini_pair_ethusd_counterexample :
    ("ethusd" ≠ "btcusd" ∧ "ethusd" ≠ "ethbtc") ∧
    (testClient.placeLimitOrder "buy" "ethusd" "order1" (mkRat 1 1) (mkRat 1 1) []
        okTransport).2.isUnsupported = false :=
  ⟨by decide, rfl⟩

/-- C3 (amended): `PlaceLimitOrder` formats the price with exactly 2 decimal
places for btcusd and for ethusd, with exactly 5 for ethbtc, and for any pair
other than these three returns the unsupported-pair error without issuing a
request and independently of the transport. -/
theorem gemini_price_formatting (ga : GeminiAPI) (side clientId : String)
    (amount price : ℚ) (options : List String) (t : Transport) :
    (∀ pair, pair = "btcusd" ∨ pair = "ethusd" →
      ((ga.placeLimitOrder side pair clientId amount price options t).2.sentRequest.bind
          Request.priceField = some (formatFixed 2 price) ∧
        hasDecimalPlaces (formatFixed 2 price) 2 = true)) ∧
    ((ga.placeLimitOrder side "ethbtc" clientId amount price options t).2.sentRequest.bind
        Request.priceField = some (formatFixed 5 price) ∧
      hasDecimalPlaces (formatFixed 5 price) 5 = true) ∧
    (∀ pair, ¬ (pair = "btcusd" ∨ pair = "ethusd" ∨ pair = "ethbtc") →
      ∀ t2 : Transport,
        ga.placeLimitOrder side pair clientId amount price options t2 =
          (ga, .unsupportedPair)) := by
  refine ⟨?_, ⟨rfl, formatFixed_decimalPlaces 5 (by omega) price⟩, ?_⟩
  · rintro pair (rfl | rfl)
    · exact ⟨rfl, formatFixed_decimalPlaces 2 (by omega) price⟩
    · exact ⟨rfl, formatFixed_decimalPlaces 2 (by omega) price⟩
  · intro pair hpair t2
    have h1 : ¬ (pair = "btcusd" ∨ pair = "ethusd") := by tauto
    have h2 : ¬ pair = "ethbtc" := by tauto
    simp [GeminiAPI.placeLimitOrder, h1, h2]

/-- Witness for C3 (amended) at the three supported pairs and one rejected
pair. -/
theorem gemini_price_formatting_witness :
    ((testClient.placeLimitOrder "buy" "btcusd" "order1" (mkRat 1 2) (mkRat 123 10) []
        okTransport).2.sentRequest.bind Request.priceField = some (formatFixed 2 (mkRat 123 10)) ∧
      hasDecimalPlaces (formatFixed 2 (mkRat 123 10)) 2 = true) ∧
    ((testClient.placeLimitOrder "buy" "ethbtc" "order1" (mkRat 1 2) (mkRat 123 10) []
        okTransport).2.sentRequest.bind Request.priceField = some (formatFixed 5 (mkRat 123 10)) ∧
      hasDecimalPlaces (formatFixed 5 (mkRat 123 10)) 5 = true) ∧
    testClient.placeLimitOrder "buy" "xrpusd" "order1" (mkRat 1 2) (mkRat 123 10) []
        okTransport = (testClient, .unsupportedPair) :=
  ⟨(gemini_price_formatting testClient "buy" "order1" (mkRat 1 2) (mkRat 123 10) []
      okTransport).1 "btcusd" (Or.inl rfl),
    (gemini_price_formatting testClient "buy" "order1" (mkRat 1 2) (mkRat 123 10) []
      okTransport).2.1,
    (gemini_price_formatting testClient "buy" "order1" (mkRat 1 2) (mkRat 123 10) []
      okTransport).2.2 "xrpusd" (by decide) okTransport⟩

/-- C6: `Withdraw` and `PlaceLimitOrder` always place the amount into the
outgoing payload formatted with exactly 8 decimal places. -/
theorem gemini_amount_eight_decimals (ga : GeminiAPI)
    (currency address side clientId : String) (amount price : ℚ)
    (options : List String) (t : Transport) :
    (ga.withdraw currency address amount t).sent.amountField =
      some (formatFixed 8 amount) ∧
    (∀ pair s,
      (ga.placeLimitOrder side pair clientId amount price options t).2.sentRequest.bind
          Request.amountField = some s →
        s = formatFixed 8 amount) ∧
    hasDecimalPlaces (formatFixed 8 amount) 8 = true := by
  refine ⟨rfl, ?_, formatFixed_decimalPlaces 8 (by omega) amount⟩
  intro pair s h
  by_cases h1 : pair = "btcusd" ∨ pair = "ethusd"
  · simp [GeminiAPI.placeLimitOrder, h1, PlaceOrderResult.sentRequest, authAPIReq_sent,
      Request.setNonce, Request.amountField] at h
    exact h.symm
  · by_cases h2 : pair = "ethbtc"
    · simp [GeminiAPI.placeLimitOrder, h1, h2, PlaceOrderResult.sentRequest, authAPIReq_sent,
        Request.setNonce, Request.amountField] at h
      exact h.symm
    · simp [GeminiAPI.placeLimitOrder, h1, h2, PlaceOrderResult.sentRequest] at h

/-- Witness for C6 at a concrete withdrawal and order. -/
theorem gemini_amount_eight_decimals_witness :
    (testClient.withdraw "btc" "1DFCqM24Sg4mKJqXPDLmPsF2hCGZkXwVff" (mkRat 1 2)
        okTransport).sent.amountField = some (formatFixed 8 (mkRat 1 2)) ∧
    "0.50000000" = formatFixed 8 (mkRat 1 2) ∧
    hasDecimalPlaces (formatFixed 8 (mkRat 1 2)) 8 = true :=
  ⟨(gemini_amount_eight_decimals testClient "btc" "1DFCqM24Sg4mKJqXPDLmPsF2hCGZkXwVff"
      "buy" "c1" (mkRat 1 2) (mkRat 123 10) [] okTransport).1,
    (gemini_amount_eight_decimals testClient "btc" "1DFCqM24Sg4mKJqXPDLmPsF2hCGZkXwVff"
      "buy" "c1" (mkRat 1 2) (mkRat 123 10) [] okTransport).2.1 "btcusd" "0.50000000"
      (by decide),
    (gemini_amount_eight_decimals testClient "btc" "1DFCqM24Sg4mKJqXPDLmPsF2hCGZkXwVff"
      "buy" "c1" (mkRat 1 2) (mkRat 123 10) [] okTransport).2.2⟩

/-- C8: every operation keeps the base URL, API key and API secret unchanged;
the nonce counter is the only client field any operation writes. -/
theorem gemini_operations_frame (ga : GeminiAPI)
    (pair side clientId currency address : String) (bidLimit askLimit : Int)
    (amount price : ℚ) (options : List String) (t : Transport) :
    (ga.getTicker pair).1 = ga ∧
    (ga.getOrderbook pair bidLimit askLimit).1 = ga ∧
    (ga.getFunds t).state = { ga with nonce := ga.nonce + 1 } ∧
    (ga.getOrderStatus t).state = { ga with nonce := ga.nonce + 1 } ∧
    ga.cancelAll t = { ga with nonce := ga.nonce + 1 } ∧
    (ga.withdraw currency address amount t).state = { ga with nonce := ga.nonce + 1 } ∧
    ((ga.placeLimitOrder side pair clientId amount price options t).1 = ga ∨
      (ga.placeLimitOrder side pair clientId amount price options t).1 =
        { ga with nonce := ga.nonce + 1 }) := by
  refine ⟨rfl, rfl, rfl, rfl, rfl, rfl, ?_⟩
  by_cases h1 : pair = "btcusd" ∨ pair = "ethusd"
  · right
    simp [GeminiAPI.placeLimitOrder, h1, authAPIReq_state]
  · by_cases h2 : pair = "ethbtc"
    · right
      simp [GeminiAPI.placeLimitOrder, h1, h2, authAPIReq_state]
    · left
      simp [GeminiAPI.placeLimitOrder, h1, h2]

/-- C9: when `PlaceLimitOrder` rejects the pair locally, the whole client
state — in particular the nonce counter — is exactly as it was before the
call. -/
theorem gemini_invalid_pair_preserves_state (ga : GeminiAPI) (side pair clientId : String)
    (amount price : ℚ) (options : List String) (t : Transport)
    (h1 : pair ≠ "btcusd") (h2 : pair ≠ "ethusd") (h3 : pair ≠ "ethbtc") :
    (ga.placeLimitOrder side pair clientId amount price options t).1 = ga ∧
    (ga.placeLimitOrder side pair clientId amount price options t).1.nonce = ga.nonce ∧
    (ga.placeLimitOrder side pair clientId amount price options t).2 = .unsupportedPair := by
  have h12 : ¬ (pair = "btcusd" ∨ pair = "ethusd") := by tauto
  refine ⟨?_, ?_, ?_⟩ <;> simp [GeminiAPI.placeLimitOrder, h12, h3]

/-- Witness for C9 at a concrete rejected pair. -/
theorem gemini_invalid_pair_preserves_state_witness :
    ("dogeusd" ≠ "btcusd" ∧ "dogeusd" ≠ "ethusd" ∧ "dogeusd" ≠ "ethbtc") ∧
    ((testClient.placeLimitOrder "sell" "dogeusd" "c1" (mkRat 1 2) (mkRat 123 10) []
        okTransport).1 = testClient ∧
      (testClient.placeLimitOrder "sell" "dogeusd" "c1" (mkRat 1 2) (mkRat 123 10) []
        okTransport).1.nonce = testClient.nonce ∧
      (testClient.placeLimitOrder "sell" "dogeusd" "c1" (mkRat 1 2) (mkRat 123 10) []
        okTransport).2 = .unsupportedPair) :=
  ⟨⟨by decide, by decide, by decide⟩,
    gemini_invalid_pair_preserves_state testClient "sell" "dogeusd" "c1" (mkRat 1 2)
      (mkRat 123 10) [] okTransport (by decide) (by decide) (by decide)⟩
